import Mathlib

/- Verification development for the CLI orchestration core of the
   migration backend: command construction, credential validation, the
   retry controller, batch orchestration, keyring state discipline and
   the temp-file lifecycle, modelled shallowly from the two executor
   services (migration-executor and stake-executor). -/

/-- Decides whether a character is an ASCII hexadecimal digit, the
character class 0-9a-fA-F used by the validation regexes. -/
def isHexChar (c : Char) : Bool :=
  ('0' ≤ c && c ≤ '9') || ('a' ≤ c && c ≤ 'f') || ('A' ≤ c && c ≤ 'F')

/-- Every character of the string is a hexadecimal digit. -/
def isHexString (s : String) : Bool := s.data.all isHexChar

/-- The first list is a leading segment of the second, character by
character. -/
def charListStarts : List Char → List Char → Bool
  | [], _ => true
  | _ :: _, [] => false
  | p :: ps, c :: cs => p == c && charListStarts ps cs

/-- Removes leading and trailing whitespace from a character list. -/
def charTrim (l : List Char) : List Char :=
  ((l.dropWhile Char.isWhitespace).reverse.dropWhile Char.isWhitespace).reverse

/-- Removes leading and trailing whitespace, the JavaScript trim call. -/
def strTrim (s : String) : String := ⟨charTrim s.data⟩

/-- Strips a leading 0x marker, as the executors do before validating
and importing hex credentials. -/
def strip0x (s : String) : String :=
  if charListStarts ['0', 'x'] s.data then ⟨s.data.drop 2⟩ else s

/-- The pattern occurs contiguously somewhere in the list; model of the
JavaScript String.includes test used throughout the executors. -/
def charListContains (pat : List Char) : List Char → Bool
  | [] => charListStarts pat []
  | c :: cs => charListStarts pat (c :: cs) || charListContains pat cs

/-- String-level contiguous substring test. -/
def strContainsSub (s pat : String) : Bool := charListContains pat.data s.data

theorem charListStarts_self_append (p q : List Char) :
    charListStarts p (p ++ q) = true := by
  induction p with
  | nil => simp [charListStarts]
  | cons a as ih => simp [charListStarts, ih]

theorem charListContains_append (l p q : List Char) :
    charListContains p (l ++ (p ++ q)) = true := by
  induction l with
  | nil =>
    cases p with
    | nil => cases q <;> simp [charListContains, charListStarts]
    | cons a as =>
      simp only [List.nil_append, List.cons_append, charListContains]
      have h := charListStarts_self_append (a :: as) q
      simp only [List.cons_append] at h
      simp [h]
  | cons c cs ih =>
    cases p with
    | nil => simp [charListContains, charListStarts]
    | cons a as =>
      simp only [List.cons_append, charListContains, Bool.or_eq_true]
      right
      simpa using ih

theorem strContainsSub_append (l m r : String) :
    strContainsSub (l ++ m ++ r) m = true := by
  show charListContains m.data (l ++ m ++ r).data = true
  have hd : (l ++ m ++ r).data = l.data ++ (m.data ++ r.data) := by
    simp [String.data_append]
  rw [hd]
  exact charListContains_append l.data m.data r.data

/-- Boolean success test on an Except value; an error value models an
operation that throws before reaching the remaining steps. -/
def exceptOk {ε α : Type _} : Except ε α → Bool
  | .ok _ => true
  | .error _ => false

namespace MigrationExecutor

/-- Hex key import command built by importPrivateKeyToKeyring: the cleaned
secret hex is interpolated between quote marks inside the command string
handed to exec. -/
def importHexCmd (walletName cleanHex homeDir : String) : String :=
  "/usr/bin/pocketd keys import-hex " ++ walletName ++ " \"" ++ cleanHex ++
    "\" --home=" ++ homeDir ++ " --keyring-backend=test"

/-- Stale identity removal command issued before the hex import. -/
def deleteKeyCmd (walletName homeDir : String) : String :=
  "/usr/bin/pocketd keys delete " ++ walletName ++ " --home " ++ homeDir ++
    " --keyring-backend test --yes"

/-- Post-import verification command issued after the hex import. -/
def showKeyCmd (walletName homeDir : String) : String :=
  "/usr/bin/pocketd keys show " ++ walletName ++ " --home " ++ homeDir ++
    " --keyring-backend test"

/-- Shannon signing key import command built by runMigrationCommand for a
hex signature: the cleaned signature is interpolated into the command
string handed to exec. -/
def importShannonHexCmd (cwd shannonKeyName cleanSignature homeDir : String) : String :=
  cwd ++ "/bin/pocketd keys import-hex " ++ shannonKeyName ++ " \"" ++
    cleanSignature ++ "\" --home=" ++ homeDir ++ " --keyring-backend=test"

/-- Result of the validation-and-command-construction phase of the
function importPrivateKeyToKeyring: the identity name, the cleaned hex,
and the commands that will be executed in order. -/
structure MigImportPlan where
  walletName : String
  cleanHex : String
  commands : List String

/-- Error message thrown by importPrivateKeyToKeyring on a malformed key. -/
def migImportError (len : Nat) : String :=
  "Invalid private key format. Expected 64 or 128 hex characters, got " ++ toString len

/-- Validation-and-command phase of importPrivateKeyToKeyring on a
hex-credential input (an input not starting with an opening brace, so the
wallet-JSON branch is skipped): trim, strip an optional 0x, test the
credential against the 64-to-128 hex-character pattern, and on success
plan the delete, import-hex and show commands; on failure throw before
any command is issued. -/
def importPrivateKeyToKeyring (privateKeyHex walletName homeDir : String) :
    Except String MigImportPlan :=
  let cleanHex := strip0x (strTrim privateKeyHex)
  if 64 ≤ cleanHex.length && cleanHex.length ≤ 128 && isHexString cleanHex then
    .ok { walletName := walletName, cleanHex := cleanHex,
          commands := [deleteKeyCmd walletName homeDir,
                       importHexCmd walletName cleanHex homeDir,
                       showKeyCmd walletName homeDir] }
  else
    .error (migImportError cleanHex.length)

end MigrationExecutor

theorem importHexCmd_contains_secret (walletName cleanHex homeDir : String) :
    strContainsSub (MigrationExecutor.importHexCmd walletName cleanHex homeDir) cleanHex = true := by
  have h : MigrationExecutor.importHexCmd walletName cleanHex homeDir =
      ("/usr/bin/pocketd keys import-hex " ++ walletName ++ " \"") ++ cleanHex ++
        ("\" --home=" ++ homeDir ++ " --keyring-backend=test") := by
    simp [MigrationExecutor.importHexCmd, String.append_assoc]
  rw [h]
  exact strContainsSub_append _ _ _

theorem importShannonHexCmd_contains_secret (cwd shannonKeyName cleanSignature homeDir : String) :
    strContainsSub (MigrationExecutor.importShannonHexCmd cwd shannonKeyName cleanSignature homeDir)
      cleanSignature = true := by
  have h : MigrationExecutor.importShannonHexCmd cwd shannonKeyName cleanSignature homeDir =
      (cwd ++ "/bin/pocketd keys import-hex " ++ shannonKeyName ++ " \"") ++ cleanSignature ++
        ("\" --home=" ++ homeDir ++ " --keyring-backend=test") := by
    simp [MigrationExecutor.importShannonHexCmd, String.append_assoc]
  rw [h]
  exact strContainsSub_append _ _ _

namespace StakeExecutor

/-- Import command built by importKeyToKeyring: the command references the
temp key file path, not the secret. -/
def importKeyCmd (pocketdPath keyName tempKeyFile homeDir keyringBackend : String) : String :=
  pocketdPath ++ " keys import " ++ keyName ++ " \"" ++ tempKeyFile ++
    "\" --home \"" ++ homeDir ++ "\" --keyring-backend " ++ keyringBackend ++
    " --output json"

/-- File-based import: the secret is written to the temp file and the
command mentions only the file path. -/
structure FileImportPlan where
  tempFileContent : String
  cmd : String

/-- Plan built by importKeyToKeyring once validation passed: write the
cleaned key to the temp file, then run the import-from-file command. -/
def importKeyPlan (pocketdPath keyName privateKey tempKeyFile homeDir keyringBackend : String) :
    FileImportPlan :=
  { tempFileContent := strip0x privateKey
    cmd := importKeyCmd pocketdPath keyName tempKeyFile homeDir keyringBackend }

/-- Argument vector spawned by performImport for the recovery-add
operation; the mnemonic is not among the arguments. -/
def performImportArgs (keyName homeDir keyringBackend : String) : List String :=
  ["keys", "add", keyName, "--recover", "--keyring-backend", keyringBackend,
   "--home", homeDir, "--output", "json"]

/-- Spawn plan with an explicit argument vector and a stdin payload. -/
structure StdinImportPlan where
  args : List String
  stdinPayload : String

/-- Plan built by performImport: the fixed argument vector plus the
mnemonic written to stdin followed by a newline. -/
def performImportPlan (keyName cleanMnemonic homeDir keyringBackend : String) :
    StdinImportPlan :=
  { args := performImportArgs keyName homeDir keyringBackend
    stdinPayload := cleanMnemonic ++ "\n" }

/-- Failure classifier of the retry controller: a failure is retryable
only when its message contains the account-sequence-mismatch signature,
or all three of the expected, got and sequence markers. -/
def isSequenceMismatchError (msg : String) : Bool :=
  strContainsSub msg "account sequence mismatch" ||
    (strContainsSub msg "expected" && strContainsSub msg "got" && strContainsSub msg "sequence")

/-- Error message thrown when the retry loop gives up, carrying the last
underlying error. -/
def retryFailMsg (maxRetries : Nat) (lastError : String) : String :=
  "Transaction failed after " ++ toString maxRetries ++ " attempts. Last error: " ++ lastError

/-- Observable outcome of a retry-controller run: the final result, the
number of attempts performed, and the sleep durations inserted between
attempts, in seconds and in order. -/
structure RetryOutcome (α : Type) where
  result : Except String α
  attempts : Nat
  delays : List Nat

/-- Loop body of executeStakeTransactionWithRetry: attempt the operation;
on success return with the attempt count; on a sequence-mismatch failure
sleep 30 times the attempt number and retry while attempts remain; on any
other failure, or on exhaustion, throw an error wrapping the last
underlying error. The operation is modelled as a function from the
attempt number to the outcome of that attempt. -/
def executeStakeTransactionWithRetryAux {α : Type} (op : Nat → Except String α)
    (maxRetries attempt : Nat) (delays : List Nat) : RetryOutcome α :=
  match op attempt with
  | .ok r => ⟨.ok r, attempt, delays⟩
  | .error e =>
    if isSequenceMismatchError e then
      if h : attempt < maxRetries then
        executeStakeTransactionWithRetryAux op maxRetries (attempt + 1) (delays ++ [30 * attempt])
      else ⟨.error (retryFailMsg maxRetries e), attempt, delays⟩
    else ⟨.error (retryFailMsg maxRetries e), attempt, delays⟩
termination_by maxRetries - attempt

/-- Retry controller of the stake executor, starting at attempt 1 with no
delays recorded. -/
def executeStakeTransactionWithRetry {α : Type} (op : Nat → Except String α)
    (maxRetries : Nat) : RetryOutcome α :=
  executeStakeTransactionWithRetryAux op maxRetries 1 []

/-- Per-unit record pushed into the batch report: the successful
transaction result, or the failure entry keeping the stake file name and
the error message. -/
inductive TxRecord (α : Type)
  | ok (r : α)
  | failed (stakeFile : String) (error : String)

/-- Boolean success test on a transaction record. -/
def isOkRecord {α : Type} : TxRecord α → Bool
  | .ok _ => true
  | .failed _ _ => false

/-- Session-level batch report aggregated by the orchestrator loops,
together with the inter-transaction delay schedule in seconds. -/
structure BatchReport (α : Type) where
  totalFiles : Nat
  successful : Nat
  failed : Nat
  transactions : List (TxRecord α)
  delays : List Nat

/-- Record produced for the unit at a given index. -/
def entryFor {α : Type} (unit : Nat → Except String α) (i : Nat) (file : String) :
    TxRecord α :=
  match unit i with
  | .ok r => .ok r
  | .error e => .failed file e

/-- Per-file loop shared by the batch orchestrators: each unit runs inside
its own try block; a success pushes the result and, when the unit is not
the last, sleeps the fixed 30-second inter-transaction delay; a failure
pushes a failure record with the error message and moves straight to the
next unit. -/
def processStakeFilesAux {α : Type} (unit : Nat → Except String α) (total : Nat) :
    Nat → List String → List (TxRecord α) × List Nat
  | _, [] => ([], [])
  | i, f :: rest =>
    match unit i with
    | .ok r =>
      (.ok r :: (processStakeFilesAux unit total (i + 1) rest).1,
       (if i < total - 1 then [30] else []) ++ (processStakeFilesAux unit total (i + 1) rest).2)
    | .error e =>
      (.failed f e :: (processStakeFilesAux unit total (i + 1) rest).1,
       (processStakeFilesAux unit total (i + 1) rest).2)

/-- Batch orchestrator over a stored session: aborts when the session
directory is missing or holds no stake files, and otherwise folds the
per-file loop into a report. -/
def executeStakeTransactions {α : Type} (sessionExists : Bool) (yamlFiles : List String)
    (unit : Nat → Except String α) : Except String (BatchReport α) :=
  if sessionExists then
    if yamlFiles.length = 0 then .error "No stake files found in session"
    else
      let p := processStakeFilesAux unit yamlFiles.length 0 yamlFiles
      .ok { totalFiles := yamlFiles.length,
            successful := p.1.countP (fun t => isOkRecord t),
            failed := p.1.countP (fun t => !isOkRecord t),
            transactions := p.1,
            delays := p.2 }
  else .error "Session not found"

/-- Batch orchestrator over caller-supplied stake files: no precondition,
the same per-file loop. -/
def executeMultipleStakesWithMnemonic {α : Type} (stakeFiles : List String)
    (unit : Nat → Except String α) : BatchReport α :=
  let p := processStakeFilesAux unit stakeFiles.length 0 stakeFiles
  { totalFiles := stakeFiles.length,
    successful := p.1.countP (fun t => isOkRecord t),
    failed := p.1.countP (fun t => !isOkRecord t),
    transactions := p.1,
    delays := p.2 }

end StakeExecutor

theorem processAux_length {α : Type} (unit : Nat → Except String α) (total : Nat) :
    ∀ (rest : List String) (i : Nat),
      (StakeExecutor.processStakeFilesAux unit total i rest).1.length = rest.length := by
  intro rest
  induction rest with
  | nil => intro i; simp [StakeExecutor.processStakeFilesAux]
  | cons a l ih =>
    intro i
    cases hop : unit i <;>
      simp [StakeExecutor.processStakeFilesAux, hop, ih (i + 1)]

theorem processAux_getElem {α : Type} (unit : Nat → Except String α) (total : Nat) :
    ∀ (rest : List String) (i j : Nat) (f : String), rest[j]? = some f →
      ((StakeExecutor.processStakeFilesAux unit total i rest).1)[j]? =
        some (StakeExecutor.entryFor unit (i + j) f) := by
  intro rest
  induction rest with
  | nil => intro i j f h; simp at h
  | cons a l ih =>
    intro i j f h
    cases j with
    | zero =>
      simp only [List.getElem?_cons_zero, Option.some.injEq] at h
      subst h
      cases hop : unit i <;>
        simp [StakeExecutor.processStakeFilesAux, hop, StakeExecutor.entryFor]
    | succ j =>
      simp only [List.getElem?_cons_succ] at h
      have hrec := ih (i + 1) j f h
      have hidx : i + 1 + j = i + (j + 1) := by omega
      rw [hidx] at hrec
      cases hop : unit i <;>
        simpa [StakeExecutor.processStakeFilesAux, hop] using hrec

theorem processAux_delays {α : Type} (unit : Nat → Except String α) (total : Nat) :
    ∀ (rest : List String) (i : Nat),
      (StakeExecutor.processStakeFilesAux unit total i rest).2.sum =
        30 * ((List.range rest.length).countP
          (fun j => exceptOk (unit (i + j)) && decide (i + j < total - 1))) := by
  intro rest
  induction rest with
  | nil => intro i; simp [StakeExecutor.processStakeFilesAux]
  | cons a l ih =>
    intro i
    have hrec : (StakeExecutor.processStakeFilesAux unit total (i + 1) l).2.sum =
        30 * (List.range l.length).countP
          (fun j => exceptOk (unit (i + (j + 1))) && decide (i + (j + 1) < total - 1)) := by
      rw [ih (i + 1)]
      congr 1
      apply List.countP_congr
      intro j _
      have hidx : i + 1 + j = i + (j + 1) := by omega
      rw [hidx]
    have hrange : (List.range (a :: l).length).countP
        (fun j => exceptOk (unit (i + j)) && decide (i + j < total - 1)) =
        ((List.range l.length).countP
          (fun j => exceptOk (unit (i + (j + 1))) && decide (i + (j + 1) < total - 1)))
          + (if exceptOk (unit (i + 0)) && decide (i + 0 < total - 1) then 1 else 0) := by
      simp only [List.length_cons]
      rw [List.range_succ_eq_map, List.countP_cons, List.countP_map]
      have hmap : (List.range l.length).countP
          ((fun j => exceptOk (unit (i + j)) && decide (i + j < total - 1)) ∘ Nat.succ) =
          (List.range l.length).countP
            (fun j => exceptOk (unit (i + (j + 1))) && decide (i + (j + 1) < total - 1)) := by
        apply List.countP_congr
        intro j _
        simp only [Function.comp_apply, Nat.succ_eq_add_one]
      rw [hmap]
    rw [hrange]
    cases hop : unit i with
    | ok r =>
      have hok : exceptOk (unit (i + 0)) = true := by
        simp [hop, exceptOk]
      by_cases hlast : i < total - 1
      · have hite : (if exceptOk (unit (i + 0)) && decide (i + 0 < total - 1) then 1 else 0) = 1 := by
          have hb : decide (i + 0 < total - 1) = true := decide_eq_true (by omega)
          rw [hok, hb]
          simp
        simp only [StakeExecutor.processStakeFilesAux, hop, if_pos hlast]
        rw [List.sum_append, hrec, hite]
        simp only [List.sum_cons, List.sum_nil]
        omega
      · have hite : (if exceptOk (unit (i + 0)) && decide (i + 0 < total - 1) then 1 else 0) = 0 := by
          have hb : decide (i + 0 < total - 1) = false := decide_eq_false (by omega)
          rw [hb, Bool.and_false]
          simp
        simp only [StakeExecutor.processStakeFilesAux, hop, if_neg hlast]
        rw [List.nil_append, hrec, hite]
        omega
    | error e =>
      have hite : (if exceptOk (unit (i + 0)) && decide (i + 0 < total - 1) then 1 else 0) = 0 := by
        have hok : exceptOk (unit (i + 0)) = false := by
          simp [hop, exceptOk]
        rw [hok, Bool.false_and]
        simp
      simp only [StakeExecutor.processStakeFilesAux, hop]
      rw [hrec, hite]
      omega

theorem countP_not_add {β : Type} (p : β → Bool) (l : List β) :
    l.countP p + l.countP (fun x => !p x) = l.length := by
  induction l with
  | nil => simp
  | cons x xs ih =>
    cases hx : p x <;> simp [List.countP_cons, hx] <;> omega

/-- C3: a unit-level failure does not abort the batch: whenever the
session exists and holds stake files, the orchestrator returns a report
(never throws a unit error), the report has exactly one record per stake
file, every failed unit keeps its error message and file name at its
position, every successful unit keeps its result at its position, and the
success and failure counters add up to the number of files; only the
session-not-found and no-stake-files preconditions abort, before any unit
executes. -/
theorem C3_batch_isolation {α : Type} (yamlFiles : List String)
    (unit : Nat → Except String α) :
    StakeExecutor.executeStakeTransactions false yamlFiles unit = .error "Session not found" ∧
    StakeExecutor.executeStakeTransactions true [] unit =
      .error "No stake files found in session" ∧
    (yamlFiles ≠ [] → ∃ rep, StakeExecutor.executeStakeTransactions true yamlFiles unit = .ok rep ∧
      rep.transactions.length = yamlFiles.length ∧
      rep.successful + rep.failed = yamlFiles.length ∧
      (∀ j f e, yamlFiles[j]? = some f → unit j = .error e →
        rep.transactions[j]? = some (.failed f e)) ∧
      (∀ j f r, yamlFiles[j]? = some f → unit j = .ok r →
        rep.transactions[j]? = some (.ok r))) := by
  refine ⟨rfl, rfl, ?_⟩
  intro hne
  have hlen : yamlFiles.length ≠ 0 := by
    simpa [List.length_eq_zero] using hne
  refine ⟨{ totalFiles := yamlFiles.length,
            successful := (StakeExecutor.processStakeFilesAux unit yamlFiles.length 0
              yamlFiles).1.countP (fun t => StakeExecutor.isOkRecord t),
            failed := (StakeExecutor.processStakeFilesAux unit yamlFiles.length 0
              yamlFiles).1.countP (fun t => !StakeExecutor.isOkRecord t),
            transactions := (StakeExecutor.processStakeFilesAux unit yamlFiles.length 0
              yamlFiles).1,
            delays := (StakeExecutor.processStakeFilesAux unit yamlFiles.length 0
              yamlFiles).2 }, ?_, ?_, ?_, ?_, ?_⟩
  · simp [StakeExecutor.executeStakeTransactions, hlen]
  · exact processAux_length unit yamlFiles.length yamlFiles 0
  · have h1 := processAux_length unit yamlFiles.length yamlFiles 0
    have h2 := countP_not_add (fun t => StakeExecutor.isOkRecord t)
      (StakeExecutor.processStakeFilesAux unit yamlFiles.length 0 yamlFiles).1
    simp only at h1 h2 ⊢
    omega
  · intro j f e hjf hje
    have hg := processAux_getElem unit yamlFiles.length yamlFiles 0 j f hjf
    rw [Nat.zero_add] at hg
    simp only
    rw [hg]
    simp [StakeExecutor.entryFor, hje]
  · intro j f r hjf hjr
    have hg := processAux_getElem unit yamlFiles.length yamlFiles 0 j f hjf
    rw [Nat.zero_add] at hg
    simp only
    rw [hg]
    simp [StakeExecutor.entryFor, hjr]

/-- Concrete per-unit outcome function whose first unit fails and whose
later units succeed. -/
def failFirstUnit : Nat → Except String Nat :=
  fun i => if i = 0 then .error "boom" else .ok 7

/-- Witness for C3 on a two-file session whose first unit fails: the
batch returns a report with both records, the first failed with its
message, the second succeeded. -/
theorem C3_batch_isolation_witness :
    ∃ rep, StakeExecutor.executeStakeTransactions true ["a.yaml", "b.yaml"] failFirstUnit =
        .ok rep ∧
      rep.transactions.length = 2 ∧
      rep.transactions[0]? = some (.failed "a.yaml" "boom") ∧
      rep.transactions[1]? = some (.ok 7) := by
  obtain ⟨rep, h1, h2, _h3, h4, h5⟩ :=
    (C3_batch_isolation ["a.yaml", "b.yaml"] failFirstUnit).2.2 (by simp)
  exact ⟨rep, h1, by simpa using h2,
    h4 0 "a.yaml" "boom" rfl rfl,
    h5 1 "b.yaml" 7 rfl rfl⟩

/-- C6 counterexample: in a two-file batch whose first unit fails, no
inter-transaction delay at all is scheduled, so the total delay is 0 and
falls short of the (K-1) times 30 seconds the claim requires. -/
theorem C6_counterexample :
    (StakeExecutor.executeMultipleStakesWithMnemonic
        ["stake_node_1.yaml", "stake_node_2.yaml"] failFirstUnit).delays.sum = 0 ∧
    (StakeExecutor.executeMultipleStakesWithMnemonic
        ["stake_node_1.yaml", "stake_node_2.yaml"] failFirstUnit).totalFiles = 2 := by
  constructor <;> rfl

/-- C6 (amended): the 30-second inter-transaction delay is inserted after
a unit exactly when that unit succeeded and is not the last, so the total
scheduled delay is 30 times the number of successful non-last units. -/
theorem C6_amended {α : Type} (stakeFiles : List String) (unit : Nat → Except String α) :
    (StakeExecutor.executeMultipleStakesWithMnemonic stakeFiles unit).delays.sum =
      30 * ((List.range stakeFiles.length).countP
        (fun j => exceptOk (unit j) && decide (j < stakeFiles.length - 1))) := by
  have := processAux_delays unit stakeFiles.length stakeFiles 0
  simpa using this

namespace StakeExecutor

/-- Error message of importKeyToKeyring for keys shorter than 64
characters. -/
def stakeImportErrorLen (len : Nat) : String :=
  "Invalid private key format. Expected at least 64 hex characters, got " ++ toString len

/-- Validation phase of importKeyToKeyring: reject missing keys and keys
with fewer than 64 characters, strip an optional 0x, and require the
remainder to match the nonempty all-hex pattern; only after these checks
is the temp key file written and the import command executed. -/
def importKeyToKeyring (privateKey : String) : Except String String :=
  if privateKey.length < 64 then .error (stakeImportErrorLen privateKey.length)
  else
    if (strip0x privateKey).length ≠ 0 && isHexString (strip0x privateKey) then
      .ok (strip0x privateKey)
    else .error "Private key must be in hex format (0-9, a-f, A-F)"

end StakeExecutor

/-- Concrete 65-character hex credential, a length the claim says must be
rejected. -/
def sampleKey65 : String :=
  "aaaaaaaaaaaaaaaaaaaaaaaaaaaaaaaaaaaaaaaaaaaaaaaaaaaaaaaaaaaaaaaaa"

/-- C4 counterexample: a 65-character hex credential, neither 64 nor 128
characters long, passes both validation gates, so the import proceeds to
spawn processes instead of failing with an invalid-format error. -/
theorem C4_counterexample :
    exceptOk (MigrationExecutor.importPrivateKeyToKeyring sampleKey65 "wallet1"
      "./localnet/pocketd") = true ∧
    exceptOk (StakeExecutor.importKeyToKeyring sampleKey65) = true := by
  constructor <;> decide

/-- C4 (amended): the migration-executor gate accepts exactly the
credentials whose trimmed, 0x-stripped form is all-hex with length in the
closed range 64 to 128; the stake-executor gate accepts exactly the
credentials of raw length at least 64 whose 0x-stripped form is nonempty
all-hex; and a migration-gate rejection returns the invalid-format error
carrying the cleaned length, before any command is issued. -/
theorem C4_amended (s w hdir : String) :
    (exceptOk (MigrationExecutor.importPrivateKeyToKeyring s w hdir) = true ↔
      (64 ≤ (strip0x (strTrim s)).length ∧ (strip0x (strTrim s)).length ≤ 128 ∧
        isHexString (strip0x (strTrim s)) = true)) ∧
    (exceptOk (MigrationExecutor.importPrivateKeyToKeyring s w hdir) = false →
      MigrationExecutor.importPrivateKeyToKeyring s w hdir =
        .error (MigrationExecutor.migImportError (strip0x (strTrim s)).length)) ∧
    (exceptOk (StakeExecutor.importKeyToKeyring s) = true ↔
      (64 ≤ s.length ∧ (strip0x s).length ≠ 0 ∧ isHexString (strip0x s) = true)) := by
  refine ⟨?_, ?_, ?_⟩
  · simp only [MigrationExecutor.importPrivateKeyToKeyring]
    split
    next hcond =>
      simp only [Bool.and_eq_true, decide_eq_true_eq] at hcond
      simp only [exceptOk, true_iff]
      exact ⟨hcond.1.1, hcond.1.2, hcond.2⟩
    next hcond =>
      simp only [exceptOk, Bool.false_eq_true, false_iff]
      intro hP
      apply hcond
      simp only [Bool.and_eq_true, decide_eq_true_eq]
      exact ⟨⟨hP.1, hP.2.1⟩, hP.2.2⟩
  · intro hfail
    simp only [MigrationExecutor.importPrivateKeyToKeyring] at hfail ⊢
    split at hfail
    next => simp [exceptOk] at hfail
    next hcond => rw [if_neg hcond]
  · simp only [StakeExecutor.importKeyToKeyring]
    split
    next h1 =>
      simp only [exceptOk, Bool.false_eq_true, false_iff]
      intro hP
      omega
    next h1 =>
      split
      next h2 =>
        simp only [Bool.and_eq_true, decide_eq_true_eq] at h2
        simp only [exceptOk, true_iff]
        exact ⟨by omega, h2.1, h2.2⟩
      next h2 =>
        simp only [exceptOk, Bool.false_eq_true, false_iff]
        intro hP
        apply h2
        simp only [Bool.and_eq_true, decide_eq_true_eq]
        exact ⟨hP.2.1, hP.2.2⟩

/-- Witness for C4: a 3-character credential is rejected by the migration
gate with the invalid-format error carrying the cleaned length 3. -/
theorem C4_amended_witness :
    MigrationExecutor.importPrivateKeyToKeyring "abc" "wallet1" "./localnet/pocketd" =
      .error (MigrationExecutor.migImportError 3) := by
  have h := (C4_amended "abc" "wallet1" "./localnet/pocketd").2.1 (by decide)
  have hlen : (strip0x (strTrim "abc")).length = 3 := by decide
  rw [hlen] at h
  exact h

/-- Counts the maximal runs of non-whitespace characters, tracking
whether the scan is inside a run; model of splitting on a whitespace-run
pattern and counting the fields. -/
def countRunsAux (p : Char → Bool) : Bool → List Char → Nat
  | _, [] => 0
  | inWord, c :: cs =>
    if p c then countRunsAux p false cs
    else (if inWord then 0 else 1) + countRunsAux p true cs

namespace StakeExecutor

/-- Word count computed by importWalletWithMnemonic: trim the phrase and
split it on whitespace runs; the empty string yields a single empty
field. -/
def mnemonicWordCount (mnemonic : String) : Nat :=
  if charTrim mnemonic.data = [] then 1
  else countRunsAux Char.isWhitespace false (charTrim mnemonic.data)

/-- Rejection message of importWalletWithMnemonic for word counts outside
the accepted range. -/
def mnemonicLengthError (wc : Nat) : String :=
  "Invalid mnemonic length. Expected 12-24 words, got " ++ toString wc

/-- Validation phase of importWalletWithMnemonic, reached after an exec
of the pocketd version probe: reject a missing phrase, then reject word
counts outside 12 to 24; only an accepted phrase reaches the keyring
listing and the recovery-add spawn. -/
def importWalletWithMnemonicGate (mnemonic : String) : Except String String :=
  if mnemonic = "" then .error "Mnemonic is required and must be a string"
  else
    if mnemonicWordCount mnemonic < 12 || mnemonicWordCount mnemonic > 24 then
      .error (mnemonicLengthError (mnemonicWordCount mnemonic))
    else .ok ⟨charTrim mnemonic.data⟩

end StakeExecutor

namespace MigrationExecutorV2

/-- Field count of the split of the cleaned signature on single spaces:
one more than the number of space characters. -/
def splitCountSpace : List Char → Nat
  | [] => 1
  | c :: cs => (if c = ' ' then 1 else 0) + splitCountSpace cs

/-- Word count used by the mnemonic detection of runMigrationCommand. -/
def shannonWordCount (cleanSignature : String) : Nat :=
  splitCountSpace cleanSignature.data

/-- Mnemonic detection of runMigrationCommand: 12 to 24 space-separated
fields. -/
def shannonIsMnemonic (cleanSignature : String) : Bool :=
  12 ≤ shannonWordCount cleanSignature && shannonWordCount cleanSignature ≤ 24

/-- One spawn of the Shannon key import: the command string, the optional
stdin payload, and the optional temp-file content holding the secret. -/
structure ImportInvocation where
  cmd : String
  stdinPayload : Option String
  tempFileContent : Option String

/-- Recovery-from-file command built for a mnemonic-shaped signature: the
phrase is imported with the recover flag from a source file, not via
stdin. -/
def recoverSourceCmd (cwd shannonKeyName mnemonicFile homeDir : String) : String :=
  cwd ++ "/bin/pocketd keys add " ++ shannonKeyName ++ " --recover --source=" ++
    mnemonicFile ++ " --home=" ++ homeDir ++ " --keyring-backend=test"

/-- Shannon import step of runMigrationCommand: trim the signature; a
signature with 12 to 24 space-separated fields is written to a temp
mnemonic file and imported from that file with no stdin payload; any
other signature is 0x-stripped and interpolated into the import-hex
command string. -/
def shannonImportInvocation (shannonSignature shannonKeyName homeDir mnemonicFile cwd : String) :
    ImportInvocation :=
  if shannonIsMnemonic (strTrim shannonSignature) then
    { cmd := recoverSourceCmd cwd shannonKeyName mnemonicFile homeDir
      stdinPayload := none
      tempFileContent := some (strTrim shannonSignature) }
  else
    { cmd := MigrationExecutor.importShannonHexCmd cwd shannonKeyName
        (strip0x (strTrim shannonSignature)) homeDir
      stdinPayload := none
      tempFileContent := none }

end MigrationExecutorV2

/-- Concrete 12-word mnemonic phrase. -/
def samplePhrase12 : String :=
  "abandon abandon abandon abandon abandon abandon abandon abandon abandon abandon abandon about"

/-- C5 counterexample: for a 12-word mnemonic credential, the Shannon
key import of the migration command feeds the phrase through a temp
file and passes no stdin payload at all, so the accepted phrase is not
fed to the recovery operation via stdin. -/
theorem C5_counterexample :
    (MigrationExecutorV2.shannonImportInvocation samplePhrase12 "shannon-aaaa" "/home/p"
      "/tmp/mnemonic.txt" "/app").stdinPayload = none ∧
    (MigrationExecutorV2.shannonImportInvocation samplePhrase12 "shannon-aaaa" "/home/p"
      "/tmp/mnemonic.txt" "/app").tempFileContent = some samplePhrase12 := by
  constructor <;> decide

/-- C5 (amended): the wallet-import path rejects word counts outside 12
to 24 before the recovery-add spawn, and its recovery-add argv is
independent of the phrase, which is carried on stdin followed by a
newline; the Shannon import of the migration command instead writes a
signature with 12 to 24 space-separated fields to a temp file imported
via a recover-from-source command with no stdin payload, and embeds any
other signature, 0x-stripped, directly in the command string. -/
theorem C5_amended (mnemonic keyName homeDir backend sig skn mfile cwd : String) :
    (StakeExecutor.mnemonicWordCount mnemonic < 12 ∨ 24 < StakeExecutor.mnemonicWordCount mnemonic →
      exceptOk (StakeExecutor.importWalletWithMnemonicGate mnemonic) = false) ∧
    (StakeExecutor.performImportPlan keyName mnemonic homeDir backend).args
      = StakeExecutor.performImportArgs keyName homeDir backend ∧
    (StakeExecutor.performImportPlan keyName mnemonic homeDir backend).stdinPayload
      = mnemonic ++ "\n" ∧
    (MigrationExecutorV2.shannonIsMnemonic (strTrim sig) = true →
      MigrationExecutorV2.shannonImportInvocation sig skn homeDir mfile cwd =
        { cmd := MigrationExecutorV2.recoverSourceCmd cwd skn mfile homeDir,
          stdinPayload := none, tempFileContent := some (strTrim sig) }) ∧
    (MigrationExecutorV2.shannonIsMnemonic (strTrim sig) = false →
      strContainsSub (MigrationExecutorV2.shannonImportInvocation sig skn homeDir mfile cwd).cmd
        (strip0x (strTrim sig)) = true) := by
  refine ⟨?_, rfl, rfl, ?_, ?_⟩
  · intro hwc
    simp only [StakeExecutor.importWalletWithMnemonicGate]
    split
    next => rfl
    next =>
      have hb : (StakeExecutor.mnemonicWordCount mnemonic < 12 ||
          StakeExecutor.mnemonicWordCount mnemonic > 24) = true := by
        rcases hwc with hlo | hhi
        · simp [hlo]
        · simp [hhi]
      rw [if_pos hb]
      rfl
  · intro hmn
    simp [MigrationExecutorV2.shannonImportInvocation, hmn]
  · intro hmn
    simp only [MigrationExecutorV2.shannonImportInvocation, hmn, Bool.false_eq_true, if_false]
    exact importShannonHexCmd_contains_secret cwd skn (strip0x (strTrim sig)) homeDir

/-- Concrete 11-word phrase, one word short of the accepted range. -/
def samplePhrase11 : String := "a a a a a a a a a a a"

/-- Witness for C5: an 11-word phrase is rejected by the wallet-import
gate. -/
theorem C5_amended_witness :
    exceptOk (StakeExecutor.importWalletWithMnemonicGate samplePhrase11) = false :=
  (C5_amended samplePhrase11 "owner" "/home/p" "test" "s" "n" "f" "c").1 (Or.inl (by decide))

theorem delayShift (a k : Nat) :
    30 * a :: (List.range k).map (fun i => 30 * (a + 1 + i)) =
      (List.range (k + 1)).map (fun i => 30 * (a + i)) := by
  have hf : (fun i => 30 * (a + 1 + i)) = ((fun i => 30 * (a + i)) ∘ Nat.succ) := by
    funext i
    simp only [Function.comp_apply, Nat.succ_eq_add_one]
    omega
  rw [hf, List.range_succ_eq_map, List.map_cons, List.map_map]
  simp

theorem retryAux_spec {α : Type} (op : Nat → Except String α) (mr : Nat) :
    ∀ n a d, mr - a = n → a ≤ mr →
      a ≤ (StakeExecutor.executeStakeTransactionWithRetryAux op mr a d).attempts ∧
      (StakeExecutor.executeStakeTransactionWithRetryAux op mr a d).attempts ≤ mr ∧
      (StakeExecutor.executeStakeTransactionWithRetryAux op mr a d).delays =
        d ++ (List.range ((StakeExecutor.executeStakeTransactionWithRetryAux op mr a d).attempts - a)).map
          (fun i => 30 * (a + i)) ∧
      (∀ r, (StakeExecutor.executeStakeTransactionWithRetryAux op mr a d).result = .ok r →
        op (StakeExecutor.executeStakeTransactionWithRetryAux op mr a d).attempts = .ok r) ∧
      (∀ msg, (StakeExecutor.executeStakeTransactionWithRetryAux op mr a d).result = .error msg →
        ∃ e, msg = StakeExecutor.retryFailMsg mr e ∧
          op (StakeExecutor.executeStakeTransactionWithRetryAux op mr a d).attempts = .error e) := by
  intro n
  induction n with
  | zero =>
    intro a d hn ha
    cases hop : op a with
    | ok r =>
      have heq : StakeExecutor.executeStakeTransactionWithRetryAux op mr a d =
          ⟨.ok r, a, d⟩ := by
        rw [StakeExecutor.executeStakeTransactionWithRetryAux]
        simp [hop]
      rw [heq]
      refine ⟨le_refl a, ha, by simp, ?_, ?_⟩
      · intro r' hr'
        simp only [Except.ok.injEq] at hr'
        rw [← hr']
        exact hop
      · intro msg hmsg
        simp at hmsg
    | error e =>
      have hlt : ¬ a < mr := by omega
      have heq : StakeExecutor.executeStakeTransactionWithRetryAux op mr a d =
          ⟨.error (StakeExecutor.retryFailMsg mr e), a, d⟩ := by
        rw [StakeExecutor.executeStakeTransactionWithRetryAux]
        by_cases hseq : StakeExecutor.isSequenceMismatchError e <;> simp [hop, hseq, hlt]
      rw [heq]
      refine ⟨le_refl a, ha, by simp, ?_, ?_⟩
      · intro r' hr'; simp at hr'
      · intro msg hmsg
        simp only [Except.error.injEq] at hmsg
        exact ⟨e, hmsg.symm, hop⟩
  | succ n ih =>
    intro a d hn ha
    have hlt : a < mr := by omega
    cases hop : op a with
    | ok r =>
      have heq : StakeExecutor.executeStakeTransactionWithRetryAux op mr a d =
          ⟨.ok r, a, d⟩ := by
        rw [StakeExecutor.executeStakeTransactionWithRetryAux]
        simp [hop]
      rw [heq]
      refine ⟨le_refl a, le_of_lt hlt, by simp, ?_, ?_⟩
      · intro r' hr'
        simp only [Except.ok.injEq] at hr'
        rw [← hr']
        exact hop
      · intro msg hmsg
        simp at hmsg
    | error e =>
      by_cases hseq : StakeExecutor.isSequenceMismatchError e
      · have heq : StakeExecutor.executeStakeTransactionWithRetryAux op mr a d =
            StakeExecutor.executeStakeTransactionWithRetryAux op mr (a + 1) (d ++ [30 * a]) := by
          rw [StakeExecutor.executeStakeTransactionWithRetryAux]
          simp [hop, hseq, hlt]
        rw [heq]
        obtain ⟨h1, h2, h3, h4, h5⟩ := ih (a + 1) (d ++ [30 * a]) (by omega) (by omega)
        refine ⟨by omega, h2, ?_, h4, h5⟩
        rw [h3]
        have hk : (StakeExecutor.executeStakeTransactionWithRetryAux op mr (a + 1)
            (d ++ [30 * a])).attempts - a =
            ((StakeExecutor.executeStakeTransactionWithRetryAux op mr (a + 1)
              (d ++ [30 * a])).attempts - (a + 1)) + 1 := by omega
        rw [hk, ← delayShift a ((StakeExecutor.executeStakeTransactionWithRetryAux op mr (a + 1)
          (d ++ [30 * a])).attempts - (a + 1)), List.append_assoc]
        simp
      · have heq : StakeExecutor.executeStakeTransactionWithRetryAux op mr a d =
            ⟨.error (StakeExecutor.retryFailMsg mr e), a, d⟩ := by
          rw [StakeExecutor.executeStakeTransactionWithRetryAux]
          simp [hop, hseq]
        rw [heq]
        refine ⟨le_refl a, le_of_lt hlt, by simp, ?_, ?_⟩
        · intro r' hr'; simp at hr'
        · intro msg hmsg
          simp only [Except.error.injEq] at hmsg
          exact ⟨e, hmsg.symm, hop⟩

/-- C2: the retry wrapper retries only on a sequence-mismatch failure
(any other first failure terminates with attempt count 1 and no delay),
performs at most 3 attempts, sleeps 30 times the attempt number between
consecutive attempts (30, 60, ... seconds), and on final failure throws
an error carrying the last underlying error. -/
theorem C2_retry_controller {α : Type} (op : Nat → Except String α) :
    (∀ e, op 1 = .error e → StakeExecutor.isSequenceMismatchError e = false →
      StakeExecutor.executeStakeTransactionWithRetry op 3 =
        ⟨.error (StakeExecutor.retryFailMsg 3 e), 1, []⟩) ∧
    (StakeExecutor.executeStakeTransactionWithRetry op 3).attempts ≤ 3 ∧
    (StakeExecutor.executeStakeTransactionWithRetry op 3).delays =
      (List.range ((StakeExecutor.executeStakeTransactionWithRetry op 3).attempts - 1)).map
        (fun i => 30 * (1 + i)) ∧
    (∀ msg, (StakeExecutor.executeStakeTransactionWithRetry op 3).result = .error msg →
      ∃ e, msg = StakeExecutor.retryFailMsg 3 e ∧
        op (StakeExecutor.executeStakeTransactionWithRetry op 3).attempts = .error e) := by
  obtain ⟨h1, h2, h3, h4, h5⟩ := retryAux_spec op 3 2 1 [] rfl (by omega)
  refine ⟨?_, h2, by simpa using h3, h5⟩
  intro e hop hseq
  unfold StakeExecutor.executeStakeTransactionWithRetry
  rw [StakeExecutor.executeStakeTransactionWithRetryAux, hop]
  simp [hseq]

/-- Witness for C2 at a concrete non-retryable failure: a single attempt,
no delays, and the wrapped error. -/
theorem C2_retry_controller_witness :
    StakeExecutor.executeStakeTransactionWithRetry (fun _ => (.error "boom" : Except String Nat)) 3 =
      ⟨.error (StakeExecutor.retryFailMsg 3 "boom"), 1, []⟩ :=
  (C2_retry_controller (fun _ => .error "boom")).1 "boom" rfl (by decide)

/-- Concrete 64-character hex credential used as a counterexample input. -/
def sampleKey64 : String :=
  "aaaaaaaaaaaaaaaaaaaaaaaaaaaaaaaaaaaaaaaaaaaaaaaaaaaaaaaaaaaaaaaa"

/-- C1 counterexample: for a valid 64-character hex credential, the raw
hex import path accepts the credential and issues an import command whose
command string contains the secret, so the secret does appear in the
command string passed to the external binary. -/
theorem C1_counterexample :
    (match MigrationExecutor.importPrivateKeyToKeyring sampleKey64 "wallet1" "./localnet/pocketd" with
     | .ok p => p.commands.any (fun c => strContainsSub c sampleKey64)
     | .error _ => false) = true := by
  decide

/-- C1 (amended): the file-based key import keeps the secret out of the
command string (the command is independent of the secret, which reaches
the binary only as temp-file content), and the mnemonic recovery feeds
the phrase via stdin with an argument vector independent of the phrase;
but the raw hex import and the Shannon hex-signature import interpolate
the secret directly into the command string. -/
theorem C1_amended (pocketdPath keyName key1 key2 tempKeyFile homeDir backend m1 m2
    walletName cleanHex cwd shannonKeyName cleanSignature : String) :
    (StakeExecutor.importKeyPlan pocketdPath keyName key1 tempKeyFile homeDir backend).cmd
      = (StakeExecutor.importKeyPlan pocketdPath keyName key2 tempKeyFile homeDir backend).cmd ∧
    (StakeExecutor.importKeyPlan pocketdPath keyName key1 tempKeyFile homeDir backend).tempFileContent
      = strip0x key1 ∧
    (StakeExecutor.performImportPlan keyName m1 homeDir backend).args
      = (StakeExecutor.performImportPlan keyName m2 homeDir backend).args ∧
    (StakeExecutor.performImportPlan keyName m1 homeDir backend).stdinPayload = m1 ++ "\n" ∧
    strContainsSub (MigrationExecutor.importHexCmd walletName cleanHex homeDir) cleanHex = true ∧
    strContainsSub (MigrationExecutor.importShannonHexCmd cwd shannonKeyName cleanSignature homeDir)
      cleanSignature = true :=
  ⟨rfl, rfl, rfl, rfl,
   importHexCmd_contains_secret walletName cleanHex homeDir,
   importShannonHexCmd_contains_secret cwd shannonKeyName cleanSignature homeDir⟩

namespace StakeExecutor

/-- Loop body of the inline retry loop of executeStakeWithMnemonic and
createNodeAndStake: retry on a sequence-mismatch failure while attempts
remain, and otherwise rethrow the raw error. -/
def mnemonicStakeLoop {α : Type} (op : Nat → Except String α) (maxRetries attempt : Nat) :
    Except String α :=
  match op attempt with
  | .ok r => .ok r
  | .error e =>
    if isSequenceMismatchError e then
      if h : attempt < maxRetries then mnemonicStakeLoop op maxRetries (attempt + 1)
      else .error e
    else .error e
termination_by maxRetries - attempt

/-- Observable temp-file lifecycle of an operation that writes a secret
to a temp file: whether the file was written, whether it was removed
before the operation returned, and the final result. -/
structure TempFileTrace (α : Type) where
  tempWritten : Bool
  tempDeleted : Bool
  result : Except String α

/-- Temp-file lifecycle of importKeyToKeyring: after validation the
cleaned key is written to the temp key file and the import command runs;
only when the exec succeeds is the temp file removed, after which stdout
is parsed; an exec failure is rethrown with the temp file still on disk.
The child process outcome and the JSON parse are parameters. -/
def importKeyToKeyringRun (keyName privateKey : String)
    (execOutcome : Except String String) (parseAddr : String → Option String) :
    TempFileTrace String :=
  match importKeyToKeyring privateKey with
  | .error e => { tempWritten := false, tempDeleted := false, result := .error e }
  | .ok _ =>
    match execOutcome with
    | .error e =>
      { tempWritten := true, tempDeleted := false,
        result := .error ("Failed to import key " ++ keyName ++ ": " ++ e) }
    | .ok stdout =>
      match parseAddr stdout with
      | some addr => { tempWritten := true, tempDeleted := true, result := .ok addr }
      | none =>
        { tempWritten := true, tempDeleted := true,
          result := .error ("Failed to import key " ++ keyName ++ ": JSON parse error") }

/-- Temp-file lifecycle of executeStakeWithMnemonic: the temp stake file
is written first; then the wallet import runs, then the retry loop around
the stake command; the temp stake file is removed only after the loop
succeeds, and every failure is rethrown with the file still on disk. -/
def executeStakeWithMnemonicRun (importOutcome : Except String String)
    (stakeOp : Nat → Except String String) : TempFileTrace String :=
  match importOutcome with
  | .error e => { tempWritten := true, tempDeleted := false, result := .error e }
  | .ok _ =>
    match mnemonicStakeLoop stakeOp 3 1 with
    | .error e => { tempWritten := true, tempDeleted := false, result := .error e }
    | .ok out => { tempWritten := true, tempDeleted := true, result := .ok out }

end StakeExecutor

/-- C7 counterexample: for a valid 64-character key whose import command
fails, the temp key file holding the secret is written but not deleted on
the failure path. -/
theorem C7_counterexample :
    (StakeExecutor.importKeyToKeyringRun "owner" sampleKey64 (.error "spawn failed")
      (fun _ => none)).tempWritten = true ∧
    (StakeExecutor.importKeyToKeyringRun "owner" sampleKey64 (.error "spawn failed")
      (fun _ => none)).tempDeleted = false := by
  constructor <;> decide

/-- C7 (amended): the temp secret files are deleted on the success path
only: when the import exec succeeds the temp key file is removed, and
when the stake pipeline succeeds the temp stake file is removed; but when
the exec fails, or when the wallet import or the stake loop fails, the
operation throws with the temp file still on disk. -/
theorem C7_amended (keyName privateKey : String) (execOutcome : Except String String)
    (parseAddr : String → Option String) (importOutcome : Except String String)
    (stakeOp : Nat → Except String String) :
    (∀ stdout, execOutcome = .ok stdout →
      exceptOk (StakeExecutor.importKeyToKeyring privateKey) = true →
      (StakeExecutor.importKeyToKeyringRun keyName privateKey execOutcome parseAddr).tempDeleted
        = true) ∧
    (∀ e, execOutcome = .error e →
      exceptOk (StakeExecutor.importKeyToKeyring privateKey) = true →
      (StakeExecutor.importKeyToKeyringRun keyName privateKey execOutcome parseAddr).tempWritten
          = true ∧
        (StakeExecutor.importKeyToKeyringRun keyName privateKey execOutcome parseAddr).tempDeleted
          = false) ∧
    (∀ out, StakeExecutor.mnemonicStakeLoop stakeOp 3 1 = .ok out →
      exceptOk importOutcome = true →
      (StakeExecutor.executeStakeWithMnemonicRun importOutcome stakeOp).tempDeleted = true) ∧
    (∀ e, importOutcome = .error e →
      (StakeExecutor.executeStakeWithMnemonicRun importOutcome stakeOp).tempWritten = true ∧
      (StakeExecutor.executeStakeWithMnemonicRun importOutcome stakeOp).tempDeleted = false) ∧
    (∀ e, StakeExecutor.mnemonicStakeLoop stakeOp 3 1 = .error e →
      exceptOk importOutcome = true →
      (StakeExecutor.executeStakeWithMnemonicRun importOutcome stakeOp).tempDeleted = false) := by
  refine ⟨?_, ?_, ?_, ?_, ?_⟩
  · intro stdout hexec hval
    cases hgate : StakeExecutor.importKeyToKeyring privateKey with
    | error e => simp [hgate, exceptOk] at hval
    | ok c =>
      subst hexec
      cases hp : parseAddr stdout <;>
        simp [StakeExecutor.importKeyToKeyringRun, hgate, hp]
  · intro e hexec hval
    cases hgate : StakeExecutor.importKeyToKeyring privateKey with
    | error e2 => simp [hgate, exceptOk] at hval
    | ok c =>
      subst hexec
      simp [StakeExecutor.importKeyToKeyringRun, hgate]
  · intro out hloop hval
    cases himp : importOutcome with
    | error e => simp [himp, exceptOk] at hval
    | ok a => simp [StakeExecutor.executeStakeWithMnemonicRun, himp, hloop]
  · intro e himp
    subst himp
    simp [StakeExecutor.executeStakeWithMnemonicRun]
  · intro e hloop hval
    cases himp : importOutcome with
    | error e2 => simp [himp, exceptOk] at hval
    | ok a => simp [StakeExecutor.executeStakeWithMnemonicRun, himp, hloop]

/-- Witness for C7 at a successful exec of the import command: the temp
key file is removed. -/
theorem C7_amended_witness :
    (StakeExecutor.importKeyToKeyringRun "owner" sampleKey64 (.ok "out")
      (fun s => some s)).tempDeleted = true :=
  (C7_amended "owner" sampleKey64 (.ok "out") (fun s => some s) (.ok "addr")
    (fun _ => .ok "o")).1 "out" rfl (by decide)

namespace KeyringModel

/-- State of the external keyring at one home-directory and backend pair,
modelled per the collaborator contract of the binary: the list of
identity names, where listing returns the names, deleting removes the
named identity, and importing appends the name but fails on a collision. -/
def importHexOp (kr : List String) (name : String) : Except String (List String) :=
  if name ∈ kr then .error "key already exists in keyring" else .ok (kr ++ [name])

/-- Effect of the delete-errors-ignored deletion step: the named identity
is removed when present, and an absent name leaves the keyring unchanged
because the failing delete is swallowed. -/
def deleteIfPresent (kr : List String) (name : String) : List String :=
  if name ∈ kr then kr.filter (fun k => k ≠ name) else kr

end KeyringModel

namespace MigrationExecutor

/-- Keyring-state effect of importPrivateKeyToKeyring: attempt a deletion
of the name with errors ignored, then import-hex, tolerating an
already-exists failure, then verify the name with keys show. -/
def importPrivateKeyToKeyringState (kr : List String) (walletName : String) :
    Except String (List String) :=
  match KeyringModel.importHexOp (KeyringModel.deleteIfPresent kr walletName) walletName with
  | .ok kr2 =>
    if walletName ∈ kr2 then .ok kr2
    else .error "Key could not be verified after import"
  | .error e =>
    if strContainsSub e "already exists" || strContainsSub e "already imported" then
      (if walletName ∈ KeyringModel.deleteIfPresent kr walletName then
        .ok (KeyringModel.deleteIfPresent kr walletName)
      else .error "Key could not be verified after import")
    else .error ("Import failed: " ++ e)

end MigrationExecutor

namespace StakeExecutor

/-- Keyring-state effect of importWalletWithMnemonic: list the keyring,
delete the name when present, then run the recovery-add, which fails on a
collision. -/
def importWalletWithMnemonicState (kr : List String) (keyName : String) :
    Except String (List String) :=
  if keyName ∈ KeyringModel.deleteIfPresent kr keyName then
    .error ("Key " ++ keyName ++ " already exists in the keyring.")
  else .ok (KeyringModel.deleteIfPresent kr keyName ++ [keyName])

end StakeExecutor

theorem deleteIfPresent_eq_filter (kr : List String) (name : String) :
    KeyringModel.deleteIfPresent kr name = kr.filter (fun k => k ≠ name) := by
  by_cases hmem : name ∈ kr
  · simp [KeyringModel.deleteIfPresent, hmem]
  · rw [KeyringModel.deleteIfPresent, if_neg hmem]
    rw [eq_comm, List.filter_eq_self]
    intro a ha
    simp only [decide_eq_true_eq]
    intro haeq
    rw [haeq] at ha
    exact hmem ha

theorem name_not_mem_filter (kr : List String) (name : String) :
    name ∉ kr.filter (fun k => k ≠ name) := by
  simp [List.mem_filter]

theorem count_filter_ne (name m : String) (hm : m ≠ name) (kr : List String) :
    (kr.filter (fun k => k ≠ name)).count m = kr.count m :=
  List.count_filter (by simp [hm])

/-- C8: importing a key under a name that already exists deletes the old
identity first and then creates the new one, in both the raw key import
and the mnemonic wallet import: the operation returns the keyring with
the stale entries for the name removed and one fresh entry appended, no
already-exists error is surfaced, the name ends up with exactly one
entry, and every other name keeps its entries. -/
theorem C8_unique_identity (kr : List String) (name : String) :
    MigrationExecutor.importPrivateKeyToKeyringState kr name =
      .ok (kr.filter (fun k => k ≠ name) ++ [name]) ∧
    StakeExecutor.importWalletWithMnemonicState kr name =
      .ok (kr.filter (fun k => k ≠ name) ++ [name]) ∧
    (kr.filter (fun k => k ≠ name) ++ [name]).count name = 1 ∧
    (∀ m, m ≠ name → (kr.filter (fun k => k ≠ name) ++ [name]).count m = kr.count m) := by
  have hdel := deleteIfPresent_eq_filter kr name
  have hnm := name_not_mem_filter kr name
  have hnm2 : name ∉ KeyringModel.deleteIfPresent kr name := by rw [hdel]; exact hnm
  refine ⟨?_, ?_, ?_, ?_⟩
  · rw [MigrationExecutor.importPrivateKeyToKeyringState]
    rw [show KeyringModel.importHexOp (KeyringModel.deleteIfPresent kr name) name =
        .ok (KeyringModel.deleteIfPresent kr name ++ [name]) from by
      rw [KeyringModel.importHexOp, if_neg hnm2]]
    simp only [hdel]
    rw [if_pos (by simp)]
  · rw [StakeExecutor.importWalletWithMnemonicState, if_neg hnm2, hdel]
  · rw [List.count_append]
    rw [List.count_eq_zero.mpr hnm]
    simp
  · intro m hm
    rw [List.count_append]
    have h0 : List.count m [name] = 0 := by
      apply List.count_eq_zero.mpr
      simp [hm]
    rw [h0, count_filter_ne name m hm]
    simp

/-- Witness for C8: importing the name owner into a keyring already
holding node1 and owner yields exactly node1 and a single owner entry,
and the node1 count is preserved. -/
theorem C8_unique_identity_witness :
    MigrationExecutor.importPrivateKeyToKeyringState ["node1", "owner"] "owner" =
      .ok ((["node1", "owner"] : List String).filter (fun k => k ≠ "owner") ++ ["owner"]) ∧
    ((["node1", "owner"] : List String).filter (fun k => k ≠ "owner") ++ ["owner"]).count "node1" =
      (["node1", "owner"] : List String).count "node1" :=
  ⟨(C8_unique_identity ["node1", "owner"] "owner").1,
   (C8_unique_identity ["node1", "owner"] "owner").2.2.2 "node1" (by decide)⟩

namespace MigrationExecutorV2

/-- Keyring-cleaning loop of runMigrationCommand: list every identity in
the keyring and delete each listed name in turn, ignoring delete
failures; the listing contract returns the names held by the keyring. -/
def cleanKeyring (kr : List String) : List String :=
  kr.foldl (fun st k => st.filter (fun x => x ≠ k)) kr

/-- Keyring state after the cleaning loop followed by the Shannon
key import of runMigrationCommand. -/
def runMigrationKeyringPhase (kr : List String) (shannonKeyName : String) : List String :=
  match KeyringModel.importHexOp (cleanKeyring kr) shannonKeyName with
  | .ok kr2 => kr2
  | .error _ => cleanKeyring kr

end MigrationExecutorV2

theorem foldl_filter_not_mem (ks : List String) :
    ∀ st : List String, ks.foldl (fun st k => st.filter (fun x => x ≠ k)) st =
      st.filter (fun x => decide (x ∉ ks)) := by
  induction ks with
  | nil =>
    intro st
    simp
  | cons k ks ih =>
    intro st
    simp only [List.foldl_cons]
    rw [ih (st.filter (fun x => x ≠ k)), List.filter_filter]
    apply List.filter_congr
    intro x _
    simp only [List.mem_cons, not_or, decide_not]
    cases hxk : decide (x = k) <;> cases hxs : decide (x ∈ ks) <;>
      simp_all

/-- C9: before importing the Shannon signing key, the migration command
deletes every key listed in the keyring, not only a colliding name: the
cleaning loop empties the keyring entirely, and after the import the
keyring holds exactly the fresh Shannon key, so no identity from an
earlier session survives. -/
theorem C9_keyring_wipe (kr : List String) (shannonKeyName : String) :
    MigrationExecutorV2.cleanKeyring kr = [] ∧
    MigrationExecutorV2.runMigrationKeyringPhase kr shannonKeyName = [shannonKeyName] := by
  have hclean : MigrationExecutorV2.cleanKeyring kr = [] := by
    rw [MigrationExecutorV2.cleanKeyring, foldl_filter_not_mem kr kr]
    rw [List.filter_eq_nil_iff]
    intro a ha
    simp [ha]
  refine ⟨hclean, ?_⟩
  rw [MigrationExecutorV2.runMigrationKeyringPhase, hclean]
  rw [show KeyringModel.importHexOp [] shannonKeyName = .ok ([] ++ [shannonKeyName]) from by
    rw [KeyringModel.importHexOp, if_neg (List.not_mem_nil shannonKeyName)]]
  simp

namespace StakeExecutor

/-- Result record returned by prepareStakeFile to the caller. -/
structure PrepareResult where
  success : Bool
  stakeFile : String
  unsignedTx : Option String
  stakeFileContent : Option String
  error : Option String
  method : String

/-- Fallback branch of prepareStakeFile: when the generate-only command
failed, read the stake file; a readable file yields a success record
carrying the raw file content under the file-content method, and an
unreadable file finally throws. -/
def prepareStakeFallback (stakeFilePath genErrMsg : String)
    (readOutcome : Except String String) : Except String PrepareResult :=
  match readOutcome with
  | .ok content =>
    .ok { success := true, stakeFile := stakeFilePath, unsignedTx := none,
          stakeFileContent := some content, error := none, method := "file-content" }
  | .error _ =>
    .error ("Failed to generate unsigned transaction for " ++ stakeFilePath ++ ": " ++ genErrMsg)

/-- prepareStakeFile: run the generate-only command and parse its stdout
as the unsigned transaction; any failure of the command or of the parse
falls back to returning the raw stake-file content as a success record.
The child process outcome, the JSON parse and the file read are
parameters. -/
def prepareStakeFile (stakeFilePath : String) (genOutcome : Except String (String × String))
    (parseJson : String → Option String) (readOutcome : Except String String) :
    Except String PrepareResult :=
  match genOutcome with
  | .ok (stdout, stderr) =>
    match parseJson (strTrim stdout) with
    | some tx =>
      .ok { success := true, stakeFile := stakeFilePath, unsignedTx := some tx,
            stakeFileContent := none,
            error := if stderr = "" then none else some (strTrim stderr),
            method := "generate-only" }
    | none => prepareStakeFallback stakeFilePath "JSON parse error" readOutcome
  | .error e => prepareStakeFallback stakeFilePath e readOutcome

end StakeExecutor

/-- C10: when the generate-only command fails but the stake file is
readable, prepareStakeFile returns a success record with no error, the
file-content method and the raw stake-file content, which carries the
same success flag as the genuine generate-only result, so the success
flag alone cannot distinguish the degraded outcome; the failure is
thrown only when the fallback read also fails. -/
theorem C10_silent_fallback (stakeFilePath e content stdout tx : String)
    (parseJson : String → Option String) :
    StakeExecutor.prepareStakeFile stakeFilePath (.error e) parseJson (.ok content) =
      .ok { success := true, stakeFile := stakeFilePath, unsignedTx := none,
            stakeFileContent := some content, error := none, method := "file-content" } ∧
    (parseJson (strTrim stdout) = some tx →
      StakeExecutor.prepareStakeFile stakeFilePath (.ok (stdout, "")) parseJson (.ok content) =
        .ok { success := true, stakeFile := stakeFilePath, unsignedTx := some tx,
              stakeFileContent := none, error := none, method := "generate-only" }) ∧
    (∀ msg, StakeExecutor.prepareStakeFile stakeFilePath (.error e) parseJson (.error msg) =
      .error ("Failed to generate unsigned transaction for " ++ stakeFilePath ++ ": " ++ e)) := by
  refine ⟨rfl, ?_, fun msg => rfl⟩
  intro hparse
  simp [StakeExecutor.prepareStakeFile, hparse]

/-- Witness for C10 at a parse that succeeds: the generate-only path
also returns a success record, with the same success flag as the
fallback. -/
theorem C10_silent_fallback_witness :
    StakeExecutor.prepareStakeFile "f.yaml" (.ok ("txjson", "")) (fun _ => some "tx1")
      (.ok "content") =
      .ok { success := true, stakeFile := "f.yaml", unsignedTx := some "tx1",
            stakeFileContent := none, error := none, method := "generate-only" } :=
  (C10_silent_fallback "f.yaml" "e" "content" "txjson" "tx1" (fun _ => some "tx1")).2.1 rfl
